import Mathlib

/-!
# Verification of the mechapengu-bot approval workflow

Shallow embedding of the approval workflow of `bot.py` and
`telegram_handler.py`:

* the pending-tweet store (`pending_tweets.json`, a JSON object mapping a
  tweet id to its data) is modelled as a partial map `String → Option TweetData`
  (the JSON (de)serialisation of the object file is the standard-library's
  and is abstracted to the map it denotes);
* the module-level dictionaries `approval_results` and `edit_states` are
  modelled as partial maps in a `BotState` record;
* the Telegram handlers `button_callback` and `message_handler` are modelled
  as pure state transformers.  python-telegram-bot's `Application` processes
  updates sequentially by default (`concurrent_updates=False`), and the
  blocking poll loop runs on the same event loop, so handler invocations are
  serialised and a sequential small-step semantics over handler events is
  faithful;
* the tweet-history file is modelled with an executable JSON string-array
  codec mirroring `json.dump`/`json.load` on a list of strings.
-/

namespace Mechapengu

/-- Pointwise insert-or-replace on a partial map (Python `d[k] = v`). -/
def mapInsert {κ : Type} [DecidableEq κ] {α : Type} (m : κ → Option α) (k : κ) (v : α) :
    κ → Option α :=
  fun k' => if k' = k then some v else m k'

/-- Pointwise removal from a partial map (Python `del d[k]`). -/
def mapErase {κ : Type} [DecidableEq κ] {α : Type} (m : κ → Option α) (k : κ) :
    κ → Option α :=
  fun k' => if k' = k then none else m k'

/-- The empty map. -/
def mapEmpty {κ : Type} {α : Type} : κ → Option α := fun _ => none

@[simp] theorem mapInsert_same {κ : Type} [DecidableEq κ] {α : Type}
    (m : κ → Option α) (k : κ) (v : α) : mapInsert m k v k = some v := by
  simp [mapInsert]

@[simp] theorem mapErase_same {κ : Type} [DecidableEq κ] {α : Type}
    (m : κ → Option α) (k : κ) : mapErase m k k = none := by
  simp [mapErase]

theorem mapInsert_ne {κ : Type} [DecidableEq κ] {α : Type}
    (m : κ → Option α) (k k' : κ) (v : α) (h : k' ≠ k) :
    mapInsert m k v k' = m k' := by
  simp [mapInsert, h]

theorem mapErase_ne {κ : Type} [DecidableEq κ] {α : Type}
    (m : κ → Option α) (k k' : κ) (h : k' ≠ k) :
    mapErase m k k' = m k' := by
  simp [mapErase, h]

/-! ## Data model (`telegram_handler.py`)

A pending tweet record, the value stored under a tweet id in
`pending_tweets.json`: `{"text": ..., "preview_path": ..., "timestamp": ...}`.
-/

structure TweetData where
  text : String
  preview_path : String
  timestamp : String
deriving DecidableEq, Repr

/-- The `"action"` field of an entry of `approval_results`
    (`"approve"`, `"deny"` or `"timeout"`). -/
inductive Action
  | approve
  | deny
  | timeout
deriving DecidableEq, Repr

/-- An entry of `approval_results`:
    `{"action": ..., "tweet_data": ...}`.  In the timeout result the
    `tweet_data` dict holds only `"text"`; the missing JSON keys are modelled
    as the empty string. -/
structure ApprovalResult where
  action : Action
  tweet_data : TweetData
deriving DecidableEq, Repr

/-- The module-level mutable state of `telegram_handler.py`:
    the contents of `pending_tweets.json` plus the two global dictionaries
    `approval_results` and `edit_states` (chat id → tweet id). -/
structure BotState where
  pending_tweets : String → Option TweetData
  approval_results : String → Option ApprovalResult
  edit_states : Int → Option String

/-- Messages surfaced to the reviewer by the handlers (`reply_text` /
    `edit_message_caption` calls). -/
inductive ReviewerMsg
  | alreadyProcessed
  | approvedCaption (text : String)
  | editPrompt (text : String)
  | deniedCaption (text : String)
  | editConfirm (newText : String)
deriving DecidableEq, Repr

/-- Result of one handler invocation: the new global state, the decision
    entry written to `approval_results` during the call (if any; this mirrors
    the single `approval_results[tweet_id] = ...` assignment each handler
    performs at most once), and the message shown to the reviewer. -/
structure HandlerOutcome where
  state : BotState
  recorded : Option (String × ApprovalResult)
  message : Option ReviewerMsg

/-- Model of `query.data.split("_", 1)`: split a character list at the first
    underscore.  `none` when there is no underscore (Python raises
    `ValueError` on unpacking). -/
def splitFirstUnderscore : List Char → Option (List Char × List Char)
  | [] => none
  | c :: rest =>
    if c = '_' then some ([], rest)
    else
      match splitFirstUnderscore rest with
      | some (pre, post) => some (c :: pre, post)
      | none => none

/-- Parse a callback-data string `action ++ "_" ++ tweet_id`. -/
def parseCallbackData (data : String) : Option (String × String) :=
  match splitFirstUnderscore data.data with
  | some (pre, post) => some (String.mk pre, String.mk post)
  | none => none

/-- Handler `button_callback` (telegram_handler.py lines 75–136): handle a button
    press carrying callback data `action ++ "_" ++ tweet_id` from chat
    `chat_id`.  `Except.error ()` models the `ValueError` raised by
    `action, tweet_id = query.data.split("_", 1)` when the data has no
    underscore (no state has been mutated at that point). -/
def button_callback (st : BotState) (chat_id : Int) (data : String) :
    Except Unit HandlerOutcome :=
  match parseCallbackData data with
  | none => .error ()
  | some (action, tweet_id) =>
    match st.pending_tweets tweet_id with
    | none =>
      -- `if tweet_id not in pending_tweets: ... "already been processed" ... return`
      .ok ⟨st, none, some .alreadyProcessed⟩
    | some tweet_data =>
      if action = "approve" then
        .ok ⟨{ st with
                approval_results :=
                  mapInsert st.approval_results tweet_id ⟨.approve, tweet_data⟩,
                pending_tweets := mapErase st.pending_tweets tweet_id },
             some (tweet_id, ⟨.approve, tweet_data⟩),
             some (.approvedCaption tweet_data.text)⟩
      else if action = "edit" then
        -- `edit_states[query.message.chat_id] = tweet_id`; pending untouched
        .ok ⟨{ st with edit_states := mapInsert st.edit_states chat_id tweet_id },
             none,
             some (.editPrompt tweet_data.text)⟩
      else if action = "deny" then
        .ok ⟨{ st with
                approval_results :=
                  mapInsert st.approval_results tweet_id ⟨.deny, tweet_data⟩,
                pending_tweets := mapErase st.pending_tweets tweet_id },
             some (tweet_id, ⟨.deny, tweet_data⟩),
             some (.deniedCaption tweet_data.text)⟩
      else
        -- no branch matches an unknown action: nothing happens
        .ok ⟨st, none, none⟩

/-- Handler `message_handler` (telegram_handler.py lines 32–72): handle a free-text
    message from chat `chat_id`.  Only acts when the chat has an open edit
    state; within it, only when the referenced tweet is still pending (the
    `if tweet_id in pending_tweets:` block has no `else`: on a stale id the
    handler returns with the edit state still open and no reply). -/
def message_handler (st : BotState) (chat_id : Int) (new_text : String) :
    HandlerOutcome :=
  match st.edit_states chat_id with
  | none => ⟨st, none, none⟩
  | some tweet_id =>
    match st.pending_tweets tweet_id with
    | none => ⟨st, none, none⟩
    | some td =>
      -- `pending_tweets[tweet_id]['text'] = new_text` then store the result,
      -- then `del pending_tweets[tweet_id]`, then `del edit_states[chat_id]`
      let updated : TweetData := { td with text := new_text }
      ⟨{ st with
          pending_tweets :=
            mapErase (mapInsert st.pending_tweets tweet_id updated) tweet_id,
          approval_results :=
            mapInsert st.approval_results tweet_id ⟨.approve, updated⟩,
          edit_states := mapErase st.edit_states chat_id },
       some (tweet_id, ⟨.approve, updated⟩),
       some (.editConfirm new_text)⟩

/-! ## Handler-event semantics -/

/-- One inbound reviewer event, dispatched to the corresponding handler. -/
inductive Event
  | button (chat_id : Int) (data : String)
  | freeText (chat_id : Int) (text : String)

/-- Run one event.  Returns the new state and the decision entry recorded
    during the step, if any.  A `ValueError` inside `button_callback` aborts
    the handler before any state mutation. -/
def step (st : BotState) (e : Event) : BotState × Option (String × ApprovalResult) :=
  match e with
  | .button c d =>
    match button_callback st c d with
    | .error _ => (st, none)
    | .ok o => (o.state, o.recorded)
  | .freeText c t =>
    let o := message_handler st c t
    (o.state, o.recorded)

/-- Run a list of events in order. -/
def run (st : BotState) : List Event → BotState
  | [] => st
  | e :: es => run (step st e).1 es

/-- Number of decision entries recorded for tweet id `id` while running the
    events. -/
def recordsFor (id : String) : BotState → List Event → Nat
  | _, [] => 0
  | st, e :: es =>
    (if ((step st e).2.map Prod.fst) = some id then 1 else 0) +
      recordsFor id (step st e).1 es

/-! ## ApprovalCoordinator (`send_tweet_for_approval`, telegram_handler.py 193–252)

The blocking wait polls `approval_results` once per second:
```
while (datetime.now() - start_time).seconds < timeout:
    if tweet_id in approval_results:
        result = approval_results[tweet_id]
        del approval_results[tweet_id]  # Clean up
        ...
        return result
    await asyncio.sleep(1)
# Timeout - clean up ... return {"action": "timeout", "tweet_data": {"text": tweet_text}}
```
-/

/-- The consuming read of the results map:
    `result = approval_results[tweet_id]; del approval_results[tweet_id]`.
    Returns the result together with the state after the deletion, or `none`
    when no result is present (`tweet_id in approval_results` is false). -/
def consumeResult (st : BotState) (tweet_id : String) :
    Option (ApprovalResult × BotState) :=
  match st.approval_results tweet_id with
  | some r =>
    some (r, { st with approval_results := mapErase st.approval_results tweet_id })
  | none => none

/-- Source constant `timeout = 86400  # 24 hours in seconds`. -/
def approvalTimeout : Nat := 86400

/-- Python's `timedelta.seconds` attribute of an elapsed duration of
    `elapsed` whole seconds: the seconds *component* after whole days are
    split off, i.e. `elapsed % 86400` — not the total number of seconds. -/
def tdSeconds (elapsed : Nat) : Nat := elapsed % 86400

/-- The loop guard `(datetime.now() - start_time).seconds < timeout`,
    with `elapsed` the real elapsed time in whole seconds. -/
def loopGuard (elapsed : Nat) : Bool := tdSeconds elapsed < approvalTimeout

/-- The timeout branch (telegram_handler.py lines 235–243): stop the
    application, send the timeout notification and return
    `{"action": "timeout", "tweet_data": {"text": tweet_text}}`.
    No mutation of `pending_tweets.json` or the global maps is performed. -/
def timeoutExit (st : BotState) (tweet_text : String) : BotState × ApprovalResult :=
  (st, ⟨.timeout, ⟨tweet_text, "", ""⟩⟩)

/-- How one execution of the wait ends. -/
inductive WaitOutcome
  | decided (r : ApprovalResult) (st : BotState)
  | timedOut (st : BotState) (r : ApprovalResult)

/-- The polling loop of `send_tweet_for_approval`.  `eventsAt n` is the list
    of reviewer events the (sequential) update dispatcher processes during
    the `n`-th one-second sleep; `elapsed` is the whole seconds elapsed since
    `start_time`; `fuel` bounds the number of iterations observed (`none`
    means the loop was still running when the fuel ran out). -/
def waitLoop (eventsAt : Nat → List Event) (tweet_id tweet_text : String) :
    BotState → Nat → Nat → Option WaitOutcome
  | _, _, 0 => none
  | st, elapsed, fuel + 1 =>
    if loopGuard elapsed then
      match consumeResult st tweet_id with
      | some (r, st') => some (.decided r st')
      | none =>
        waitLoop eventsAt tweet_id tweet_text (run st (eventsAt elapsed)) (elapsed + 1) fuel
    else
      some (.timedOut (timeoutExit st tweet_text).1 (timeoutExit st tweet_text).2)

/-- Holds (`true`) unless the observation is a timeout return. -/
def notTimedOut : Option WaitOutcome → Bool
  | some (.timedOut _ _) => false
  | _ => true

/-! ## Draft submission (`send_approval_request_async`, telegram_handler.py 139–182) -/

/-- The fields of a Python `datetime` that `strftime("%Y%m%d_%H%M%S")`
    reads: the creation time at one-second resolution. -/
structure PyDateTime where
  year : Nat
  month : Nat
  day : Nat
  hour : Nat
  minute : Nat
  second : Nat
deriving DecidableEq, Repr

/-- The ranges Python's `datetime` guarantees for its fields
    (`MINYEAR = 1`, `MAXYEAR = 9999`). -/
def PyDateTime.Valid (t : PyDateTime) : Prop :=
  1 ≤ t.year ∧ t.year ≤ 9999 ∧ 1 ≤ t.month ∧ t.month ≤ 12 ∧
    1 ≤ t.day ∧ t.day ≤ 31 ∧ t.hour ≤ 23 ∧ t.minute ≤ 59 ∧ t.second ≤ 59

instance (t : PyDateTime) : Decidable t.Valid := by
  unfold PyDateTime.Valid; infer_instance

/-- The decimal digit character for `d % 10`. -/
def digitChar (d : Nat) : Char := Char.ofNat (48 + d % 10)

/-- Zero-padded two-digit decimal rendering (`%m`, `%d`, `%H`, `%M`, `%S`). -/
def pad2 (n : Nat) : List Char := [digitChar (n / 10), digitChar n]

/-- Zero-padded four-digit decimal rendering (`%Y` for years up to 9999). -/
def pad4 (n : Nat) : List Char :=
  [digitChar (n / 1000), digitChar (n / 100), digitChar (n / 10), digitChar n]

/-- Id derivation `tweet_id = datetime.now().strftime("%Y%m%d_%H%M%S")`. -/
def formatTweetId (t : PyDateTime) : String :=
  String.mk (pad4 t.year ++ pad2 t.month ++ pad2 t.day ++ '_' ::
    (pad2 t.hour ++ pad2 t.minute ++ pad2 t.second))

/-- Submission `send_approval_request_async` (telegram_handler.py 139–182): derive the
    tweet id from the current time, store the draft in the pending file
    (`pending_tweets[tweet_id] = {...}`, a dict insert-or-replace), and
    return the id.  Sending the photo message is presentation and carries no
    store state.  `nowIso` is `datetime.now().isoformat()`. -/
def send_approval_request_async (st : BotState) (tweet_text preview_image_path : String)
    (now : PyDateTime) (nowIso : String) : String × BotState :=
  let tweet_id := formatTweetId now
  (tweet_id,
   { st with pending_tweets :=
      mapInsert st.pending_tweets tweet_id ⟨tweet_text, preview_image_path, nowIso⟩ })

/-! ## The scheduler loop (`main`, bot.py 330–486), production configuration

Source constants: `TEST_MODE = False`, `TELEGRAM_APPROVAL = True`.  One
iteration of the `while True:` body is modelled as a function of the
outcomes of its effectful stages.  The outer `except Exception` (bot.py
472–479) sleeps 300 seconds; the inner `except Exception` around the
approval flow (bot.py 378–412) swallows the error, after which control
reaches the normal randomized sleep (bot.py 466–470).
-/

/-- What the approval-decision dispatch in `main` does with a result:
    `final_tweet_text = result["tweet_data"]["text"]` is the text handed to
    `post_tweet` on approval. -/
inductive PublishStep
  | post (text : String)
  | skipDeny
  | skipTimeout
deriving DecidableEq, Repr

/-- The dispatch on `result["action"]` (bot.py 384–405). -/
def dispatchResult (result : ApprovalResult) : PublishStep :=
  match result.action with
  | .approve => .post result.tweet_data.text
  | .deny => .skipDeny
  | .timeout => .skipTimeout

/-- The failure taxonomy of one cycle's effectful stages. -/
inductive CycleError
  | generationFailed
  | imageFailed
  | approvalFailed
  | publishFailed
deriving DecidableEq, Repr

/-- The environment of one cycle iteration: the outcome of each effectful
    stage (`.error` models the stage raising), and the sample drawn by
    `random.uniform(1800, 3600)` for the normal sleep. -/
structure CycleEnv where
  gen : Except CycleError String
  image : Except CycleError String
  approval : Except CycleError ApprovalResult
  publishOk : Bool
  normalSleep : Nat

/-- The observable outcome of one iteration of the production loop body. -/
structure CycleOutcome where
  sleepSeconds : Nat
  history : List String
  terminated : Bool
  failure : Option CycleError
deriving DecidableEq, Repr

/-- One iteration of `main`'s `while True:` body with `TEST_MODE = False`
    and `TELEGRAM_APPROVAL = True` (bot.py 338–479).  Generation or image
    failures raise past the approval block to the outer handler (300 s
    backoff); a failure of `send_tweet_for_approval`, or of `post_tweet`
    inside the approval `try`, is caught by the inner handler at bot.py 407
    ("Skip this tweet and continue"), after which the normal randomized
    sleep at bot.py 466 runs.  No failure leaves the loop. -/
def runCycle (env : CycleEnv) (history : List String) : CycleOutcome :=
  match env.gen with
  | .error e => ⟨300, history, false, some e⟩
  | .ok _tweet_text =>
    match env.image with
    | .error e => ⟨300, history, false, some e⟩
    | .ok _image_path =>
      match env.approval with
      | .error e => ⟨env.normalSleep, history, false, some e⟩
      | .ok result =>
        match dispatchResult result with
        | .post final_tweet_text =>
          if env.publishOk then
            ⟨env.normalSleep, history ++ [final_tweet_text], false, none⟩
          else
            ⟨env.normalSleep, history, false, some .publishFailed⟩
        | .skipDeny => ⟨env.normalSleep, history, false, none⟩
        | .skipTimeout => ⟨env.normalSleep, history, false, none⟩

/-! ## Manual trigger (DecisionChannel), modelled from the spec -/

/-- Modelled from the spec: the manual "generate now" trigger and the
    CycleScheduler wake condition are part of the fuller DecisionChannel
    variant that is not present under `src/`.  Spec §4.2:
    "`onManualTrigger(sessionKey)`: if a generation cycle is already in
    progress (externally-tracked flag), reply 'busy, please wait' and take
    no further action; else signal the CycleScheduler's wake condition
    exactly once (edge-triggered, not a counter — multiple triggers while
    busy collapse to one pending wake)."  The wake condition is an
    edge-triggered event flag. -/
structure TriggerState where
  generationInProgress : Bool
  wakePending : Bool
deriving DecidableEq, Repr

/-- Reply sent to the reviewer by the manual trigger. -/
inductive TriggerReply
  | busyPleaseWait
  | triggered
deriving DecidableEq, Repr

/-- Modelled from the spec: one `onManualTrigger` invocation.  Returns the
    new state, the reply, and the number of wake signals emitted by this
    call. -/
def onManualTrigger (st : TriggerState) : TriggerState × TriggerReply × Nat :=
  if st.generationInProgress then
    (st, .busyPleaseWait, 0)
  else
    ({ st with wakePending := true }, .triggered, 1)

/-! ## Tweet history (`load_history` / `save_history`, bot.py 37–46)

The history is a JSON list of strings, rewritten in full on every save
(`json.dump(history, f)`) and reread in full (`json.load(f)`).  The
(de)serialisation is modelled by an executable codec for JSON arrays of
strings: strings are quoted with `"` and `\` escaped and control characters
rendered as `\u00XX`, elements are separated by `", "` (the default
`json.dump` separator). -/

/-- Lower-case hexadecimal digit character for `n < 16`. -/
def hexDigitChar (n : Nat) : Char :=
  if n < 10 then Char.ofNat (48 + n) else Char.ofNat (87 + n)

/-- Numeric value of a hexadecimal digit character. -/
def hexDigitVal (c : Char) : Option Nat :=
  if '0' ≤ c ∧ c ≤ '9' then some (c.toNat - 48)
  else if 'a' ≤ c ∧ c ≤ 'f' then some (c.toNat - 87)
  else if 'A' ≤ c ∧ c ≤ 'F' then some (c.toNat - 55)
  else none

/-- JSON escaping of one character inside a string literal. -/
def escapeChar (c : Char) : List Char :=
  if c = '"' then ['\\', '"']
  else if c = '\\' then ['\\', '\\']
  else if c.toNat < 32 then
    ['\\', 'u', '0', '0', hexDigitChar (c.toNat / 16), hexDigitChar (c.toNat % 16)]
  else [c]

/-- JSON escaping of a character sequence. -/
def escapeList : List Char → List Char
  | [] => []
  | c :: rest => escapeChar c ++ escapeList rest

/-- The characters of the JSON rendering of the elements of a string array,
    including the closing bracket: `]` for the empty tail, and
    `", "`-separated quoted strings otherwise. -/
def encodeElemsRest : List String → List Char
  | [] => [']']
  | s :: rest => ',' :: ' ' :: '"' :: (escapeList s.data ++ '"' :: encodeElemsRest rest)

/-- As `encodeElemsRest`, for the first element (no separator). -/
def encodeElemsFirst : List String → List Char
  | [] => [']']
  | s :: rest => '"' :: (escapeList s.data ++ '"' :: encodeElemsRest rest)

/-- Encoding `json.dump(history, f)`: the full file contents written for a history
    list. -/
def encodeHistory (history : List String) : String :=
  String.mk ('[' :: encodeElemsFirst history)

/-- Numeric value of four hexadecimal digit characters. -/
def hex4 (a b c d : Char) : Option Nat :=
  (hexDigitVal a).bind fun va =>
    (hexDigitVal b).bind fun vb =>
      (hexDigitVal c).bind fun vc =>
        (hexDigitVal d).map fun vd => ((va * 16 + vb) * 16 + vc) * 16 + vd

/-- Parse a JSON string-literal body up to and including the closing quote;
    returns the decoded characters and the remaining input. -/
def parseStringBody : List Char → Option (List Char × List Char)
  | [] => none
  | '"' :: rest => some ([], rest)
  | '\\' :: '"' :: rest => (parseStringBody rest).map (fun p => ('"' :: p.1, p.2))
  | '\\' :: '\\' :: rest => (parseStringBody rest).map (fun p => ('\\' :: p.1, p.2))
  | '\\' :: 'u' :: a :: b :: c :: d :: rest =>
    (hex4 a b c d).bind fun v =>
      (parseStringBody rest).map (fun p => (Char.ofNat v :: p.1, p.2))
  | '\\' :: _ => none
  | c :: rest => (parseStringBody rest).map (fun p => (c :: p.1, p.2))

/-- Parse the elements of a string array after the opening bracket.
    `afterElem` is `false` before the first element and `true` after an
    element (expecting `]` or a `", "` separator).  `fuel` bounds the number
    of elements. -/
def parseElems (afterElem : Bool) : Nat → List Char → Option (List String × List Char)
  | 0, _ => none
  | _ + 1, ']' :: rest => some ([], rest)
  | fuel + 1, '"' :: rest =>
    if afterElem then none
    else
      (parseStringBody rest).bind fun sp =>
        (parseElems true fuel sp.2).map (fun p => (String.mk sp.1 :: p.1, p.2))
  | fuel + 1, ',' :: ' ' :: '"' :: rest =>
    if afterElem then
      (parseStringBody rest).bind fun sp =>
        (parseElems true fuel sp.2).map (fun p => (String.mk sp.1 :: p.1, p.2))
    else none
  | _ + 1, _ => none

/-- Decoding `json.load(f)` restricted to arrays of strings: `none` models a raised
    `JSONDecodeError` (or a non-list document). -/
def parseHistory (content : String) : Option (List String) :=
  match content.data with
  | '[' :: rest =>
    match parseElems false (rest.length + 1) rest with
    | some (l, []) => some l
    | _ => none
  | _ => none

/-- The history file: `none` when `tweet_history.json` does not exist,
    otherwise its full contents. -/
def HistoryFile : Type := Option String

/-- Function `save_history(history)` (bot.py 44–46): overwrite the file with the JSON
    rendering of the list. -/
def save_history (history : List String) : HistoryFile :=
  some (encodeHistory history)

/-- Function `load_history()` (bot.py 37–41): `[]` when the file does not exist,
    otherwise the parsed contents (`none` models `json.load` raising). -/
def load_history (file : HistoryFile) : Option (List String) :=
  match file with
  | some content => parseHistory content
  | none => some []

/-- The per-cycle history update on a posted tweet (bot.py 389–390):
    `history.append(final_tweet_text); save_history(history)`, with the next
    cycle re-reading the file (bot.py 339).  Iterated over a list of posted
    texts. -/
def appendAndSaveAll (file : HistoryFile) : List String → HistoryFile
  | [] => file
  | t :: ts =>
    match load_history file with
    | some history => appendAndSaveAll (save_history (history ++ [t])) ts
    | none => file
    -- a `json.load` failure raises out of the loop: no further writes

/-! ## Callback-data parsing lemmas -/

theorem splitFirstUnderscore_append (pre post : List Char) (h : '_' ∉ pre) :
    splitFirstUnderscore (pre ++ '_' :: post) = some (pre, post) := by
  induction pre with
  | nil => simp [splitFirstUnderscore]
  | cons c cs ih =>
    have hc : ¬c = '_' := fun he => h (he ▸ List.mem_cons_self c cs)
    have hcs : '_' ∉ cs := fun hm => h (List.mem_cons_of_mem _ hm)
    simp [splitFirstUnderscore, hc, ih hcs]

theorem parseCallbackData_append (action id : String) (h : '_' ∉ action.data) :
    parseCallbackData (action ++ "_" ++ id) = some (action, id) := by
  have hdata : (action ++ "_" ++ id).data = action.data ++ '_' :: id.data := by
    simp [String.data_append]
  simp [parseCallbackData, hdata, splitFirstUnderscore_append _ _ h]

theorem parseCallbackData_approve (id : String) :
    parseCallbackData ("approve_" ++ id) = some ("approve", id) :=
  parseCallbackData_append "approve" id (by decide)

theorem parseCallbackData_edit (id : String) :
    parseCallbackData ("edit_" ++ id) = some ("edit", id) :=
  parseCallbackData_append "edit" id (by decide)

theorem parseCallbackData_deny (id : String) :
    parseCallbackData ("deny_" ++ id) = some ("deny", id) :=
  parseCallbackData_append "deny" id (by decide)

/-! ## Handler computation lemmas -/

theorem button_callback_absent (st : BotState) (chat : Int) (a id : String)
    (habs : st.pending_tweets id = none)
    (ha : a = "approve" ∨ a = "edit" ∨ a = "deny") :
    button_callback st chat (a ++ "_" ++ id) = .ok ⟨st, none, some .alreadyProcessed⟩ := by
  rcases ha with rfl | rfl | rfl <;>
    simp [button_callback, parseCallbackData_approve, parseCallbackData_edit,
      parseCallbackData_deny, habs]

theorem button_callback_approve (st : BotState) (chat : Int) (id : String) (d : TweetData)
    (hpend : st.pending_tweets id = some d) :
    button_callback st chat ("approve_" ++ id) =
      .ok ⟨{ st with
              approval_results := mapInsert st.approval_results id ⟨.approve, d⟩,
              pending_tweets := mapErase st.pending_tweets id },
           some (id, ⟨.approve, d⟩), some (.approvedCaption d.text)⟩ := by
  simp [button_callback, parseCallbackData_approve, hpend]

theorem button_callback_edit (st : BotState) (chat : Int) (id : String) (d : TweetData)
    (hpend : st.pending_tweets id = some d) :
    button_callback st chat ("edit_" ++ id) =
      .ok ⟨{ st with edit_states := mapInsert st.edit_states chat id },
           none, some (.editPrompt d.text)⟩ := by
  simp [button_callback, parseCallbackData_edit, hpend]

theorem message_handler_edit (st : BotState) (chat : Int) (id new_text : String)
    (d : TweetData) (hedit : st.edit_states chat = some id)
    (hpend : st.pending_tweets id = some d) :
    message_handler st chat new_text =
      ⟨{ st with
          pending_tweets :=
            mapErase (mapInsert st.pending_tweets id { d with text := new_text }) id,
          approval_results :=
            mapInsert st.approval_results id ⟨.approve, { d with text := new_text }⟩,
          edit_states := mapErase st.edit_states chat },
       some (id, ⟨.approve, { d with text := new_text }⟩),
       some (.editConfirm new_text)⟩ := by
  simp [message_handler, hedit, hpend]

/-! ## Claim C5 -/

/-- Claim C5: for a draft id absent from the pending store, any of the three
button handlers (approve, edit, deny) is a safe no-op: the reviewer is shown
the "already processed" notice, no decision is recorded, the state is
unchanged and no exception escapes; in particular a second approve after a
draft was resolved by a first approve records no duplicate decision. -/
theorem absent_draft_is_noop :
    (∀ (st : BotState) (chat : Int) (a id : String),
        st.pending_tweets id = none →
        (a = "approve" ∨ a = "edit" ∨ a = "deny") →
        button_callback st chat (a ++ "_" ++ id) =
          .ok ⟨st, none, some .alreadyProcessed⟩) ∧
    (∀ (st : BotState) (chat chat' : Int) (id : String) (d : TweetData),
        st.pending_tweets id = some d →
        ∀ o, button_callback st chat ("approve_" ++ id) = .ok o →
          o.state.pending_tweets id = none ∧
          o.recorded = some (id, ⟨.approve, d⟩) ∧
          button_callback o.state chat' ("approve_" ++ id) =
            .ok ⟨o.state, none, some .alreadyProcessed⟩) := by
  refine ⟨fun st chat a id habs ha => button_callback_absent st chat a id habs ha,
    fun st chat chat' id d hpend o ho => ?_⟩
  rw [button_callback_approve st chat id d hpend] at ho
  cases ho
  refine ⟨mapErase_same _ _, rfl, ?_⟩
  exact button_callback_absent _ chat' "approve" id (mapErase_same _ _) (Or.inl rfl)

/-- Concrete instantiation of `absent_draft_is_noop`. -/
theorem absent_draft_is_noop_witness :
    button_callback ⟨mapEmpty, mapEmpty, fun _ => none⟩ 1 ("deny_" ++ "x") =
      .ok ⟨⟨mapEmpty, mapEmpty, fun _ => none⟩, none, some .alreadyProcessed⟩ ∧
    ∀ o, button_callback
          ⟨mapInsert mapEmpty "x" ⟨"gm wagmi", "p", "ts"⟩, mapEmpty, fun _ => none⟩ 1
          ("approve_" ++ "x") = .ok o →
        o.state.pending_tweets "x" = none ∧
        o.recorded = some ("x", ⟨.approve, ⟨"gm wagmi", "p", "ts"⟩⟩) ∧
        button_callback o.state 2 ("approve_" ++ "x") =
          .ok ⟨o.state, none, some .alreadyProcessed⟩ :=
  ⟨absent_draft_is_noop.1 ⟨mapEmpty, mapEmpty, fun _ => none⟩ 1 "deny" "x" rfl
      (Or.inr (Or.inr rfl)),
   fun o ho => absent_draft_is_noop.2
      ⟨mapInsert mapEmpty "x" ⟨"gm wagmi", "p", "ts"⟩, mapEmpty, fun _ => none⟩ 1 2 "x"
      ⟨"gm wagmi", "p", "ts"⟩ (by simp [mapInsert]) o ho⟩

/-! ## Claim C10 -/

/-- Claim C10: a free-text message for a chat whose edit session references a
draft id that is no longer pending is dropped without recording a decision,
without a reply, and without closing the edit session: the edit state still
maps the chat to the same stale draft id afterwards. -/
theorem stale_edit_session_stays_open (st : BotState) (chat : Int) (id text : String)
    (hedit : st.edit_states chat = some id)
    (hstale : st.pending_tweets id = none) :
    message_handler st chat text = ⟨st, none, none⟩ ∧
    (message_handler st chat text).state.edit_states chat = some id := by
  have h : message_handler st chat text = ⟨st, none, none⟩ := by
    simp [message_handler, hedit, hstale]
  exact ⟨h, by rw [h]; exact hedit⟩

/-- Concrete instantiation of `stale_edit_session_stays_open`. -/
theorem stale_edit_session_stays_open_witness :
    message_handler ⟨mapEmpty, mapEmpty, mapInsert (fun _ => none) 1 "x"⟩ 1 "B" =
      ⟨⟨mapEmpty, mapEmpty, mapInsert (fun _ => none) 1 "x"⟩, none, none⟩ ∧
    (message_handler ⟨mapEmpty, mapEmpty, mapInsert (fun _ => none) 1 "x"⟩ 1 "B").state.edit_states 1 =
      some "x" :=
  stale_edit_session_stays_open ⟨mapEmpty, mapEmpty, mapInsert (fun _ => none) 1 "x"⟩
    1 "x" "B" (by simp [mapInsert]) rfl

/-! ## Claim C2 -/

/-- Claim C2: for a pending draft with text `d.text`, pressing Edit and then
sending free text `B` records `Decision{Approve, finalText = B}` with the
draft text replaced by `B`, removes the draft from the pending store, closes
the edit session, confirms to the reviewer, and the text handed to the
publisher by `main`'s dispatch is `B` — never the original text when it
differs from `B`. -/
theorem edit_then_freetext_publishes_new_text (st : BotState) (chat : Int)
    (id B : String) (d : TweetData) (hpend : st.pending_tweets id = some d) :
    button_callback st chat ("edit_" ++ id) =
      .ok ⟨{ st with edit_states := mapInsert st.edit_states chat id },
           none, some (.editPrompt d.text)⟩ ∧
    (message_handler { st with edit_states := mapInsert st.edit_states chat id }
        chat B).recorded = some (id, ⟨.approve, { d with text := B }⟩) ∧
    (message_handler { st with edit_states := mapInsert st.edit_states chat id }
        chat B).state.approval_results id = some ⟨.approve, { d with text := B }⟩ ∧
    (message_handler { st with edit_states := mapInsert st.edit_states chat id }
        chat B).state.pending_tweets id = none ∧
    (message_handler { st with edit_states := mapInsert st.edit_states chat id }
        chat B).state.edit_states chat = none ∧
    (message_handler { st with edit_states := mapInsert st.edit_states chat id }
        chat B).message = some (.editConfirm B) ∧
    ((consumeResult (message_handler
          { st with edit_states := mapInsert st.edit_states chat id } chat B).state
        id).map (fun p => dispatchResult p.1)) = some (.post B) ∧
    (d.text ≠ B → PublishStep.post B ≠ .post d.text) := by
  have hedit : ({ st with edit_states := mapInsert st.edit_states chat id} :
      BotState).edit_states chat = some id := mapInsert_same _ _ _
  have hpend' : ({ st with edit_states := mapInsert st.edit_states chat id} :
      BotState).pending_tweets id = some d := hpend
  have h2 := message_handler_edit _ chat id B d hedit hpend'
  refine ⟨button_callback_edit st chat id d hpend, ?_, ?_, ?_, ?_, ?_, ?_, ?_⟩
  · rw [h2]
  · rw [h2]; exact mapInsert_same _ _ _
  · rw [h2]; exact mapErase_same _ _
  · rw [h2]; exact mapErase_same _ _
  · rw [h2]
  · rw [h2]
    simp [consumeResult, mapInsert_same, dispatchResult]
  · intro hne he
    exact hne (by cases he; rfl)

/-- Concrete instantiation of `edit_then_freetext_publishes_new_text`:
a draft with text "A" edited to "B". -/
theorem edit_then_freetext_publishes_new_text_witness :
    (let st : BotState := ⟨mapInsert mapEmpty "x" ⟨"A", "p", "ts"⟩, mapEmpty, fun _ => none⟩
     button_callback st 1 ("edit_" ++ "x") =
        .ok ⟨{ st with edit_states := mapInsert st.edit_states 1 "x" },
             none, some (.editPrompt (⟨"A", "p", "ts"⟩ : TweetData).text)⟩ ∧
      (message_handler { st with edit_states := mapInsert st.edit_states 1 "x" }
          1 "B").recorded = some ("x", ⟨.approve, { (⟨"A", "p", "ts"⟩ : TweetData) with text := "B" }⟩) ∧
      (message_handler { st with edit_states := mapInsert st.edit_states 1 "x" }
          1 "B").state.approval_results "x" =
            some ⟨.approve, { (⟨"A", "p", "ts"⟩ : TweetData) with text := "B" }⟩ ∧
      (message_handler { st with edit_states := mapInsert st.edit_states 1 "x" }
          1 "B").state.pending_tweets "x" = none ∧
      (message_handler { st with edit_states := mapInsert st.edit_states 1 "x" }
          1 "B").state.edit_states 1 = none ∧
      (message_handler { st with edit_states := mapInsert st.edit_states 1 "x" }
          1 "B").message = some (.editConfirm "B") ∧
      ((consumeResult (message_handler
            { st with edit_states := mapInsert st.edit_states 1 "x" } 1 "B").state
          "x").map (fun p => dispatchResult p.1)) = some (.post "B") ∧
      ((⟨"A", "p", "ts"⟩ : TweetData).text ≠ "B" → PublishStep.post "B" ≠ .post (⟨"A", "p", "ts"⟩ : TweetData).text)) :=
  edit_then_freetext_publishes_new_text _ 1 "x" "B" ⟨"A", "p", "ts"⟩ (by simp [mapInsert])

/-! ## Claim C1: at most one decision per draft id -/

/-- Specification of one handler step with respect to a fixed draft id:
either the step records a decision for that id — and then the draft was
pending before and is removed — or it records nothing for that id and
leaves the id's pending entry unchanged. -/
theorem step_spec (st : BotState) (e : Event) (id : String) :
    ((step st e).2.map Prod.fst = some id ∧ st.pending_tweets id ≠ none ∧
      (step st e).1.pending_tweets id = none) ∨
    ((step st e).2.map Prod.fst ≠ some id ∧
      (step st e).1.pending_tweets id = st.pending_tweets id) := by
  cases e with
  | button c data =>
    cases hp : parseCallbackData data with
    | none => right; simp [step, button_callback, hp]
    | some p =>
      obtain ⟨a, t⟩ := p
      cases hq : st.pending_tweets t with
      | none => right; simp [step, button_callback, hp, hq]
      | some td =>
        by_cases hat : a = "approve"
        · subst hat
          by_cases hit : id = t
          · subst hit
            left
            refine ⟨by simp [step, button_callback, hp, hq], by simp [hq], ?_⟩
            simp [step, button_callback, hp, hq, mapErase_same]
          · right
            refine ⟨by simp [step, button_callback, hp, hq, Ne.symm hit], ?_⟩
            simp [step, button_callback, hp, hq, mapErase_ne _ _ _ hit]
        · by_cases hae : a = "edit"
          · subst hae
            right
            simp [step, button_callback, hp, hq]
          · by_cases had : a = "deny"
            · subst had
              by_cases hit : id = t
              · subst hit
                left
                refine ⟨by simp [step, button_callback, hp, hq, hat], by simp [hq], ?_⟩
                simp [step, button_callback, hp, hq, hat, mapErase_same]
              · right
                refine ⟨by simp [step, button_callback, hp, hq, hat, Ne.symm hit], ?_⟩
                simp [step, button_callback, hp, hq, hat, mapErase_ne _ _ _ hit]
            · right
              simp [step, button_callback, hp, hq, hat, hae, had]
  | freeText c txt =>
    cases he : st.edit_states c with
    | none => right; simp [step, message_handler, he]
    | some tid =>
      cases hq : st.pending_tweets tid with
      | none => right; simp [step, message_handler, he, hq]
      | some td =>
        by_cases hit : id = tid
        · subst hit
          left
          refine ⟨by simp [step, message_handler, he, hq], by simp [hq], ?_⟩
          simp [step, message_handler, he, hq, mapErase_same]
        · right
          refine ⟨by simp [step, message_handler, he, hq, Ne.symm hit], ?_⟩
          simp [step, message_handler, he, hq,
            mapErase_ne _ _ _ hit, mapInsert_ne _ _ _ _ hit]

/-- Once a draft id is absent from the pending store, no later handler step
records a decision for it. -/
theorem recordsFor_of_pending_none (id : String) :
    ∀ (evs : List Event) (st : BotState),
      st.pending_tweets id = none → recordsFor id st evs = 0 := by
  intro evs
  induction evs with
  | nil => intro st _; rfl
  | cons e es ih =>
    intro st h
    rcases step_spec st e id with ⟨_, hne, _⟩ | ⟨hrec, hpend⟩
    · exact absurd h hne
    · simp [recordsFor, hrec, ih _ (hpend.trans h)]

/-- Over any event sequence, at most one decision is recorded per draft id. -/
theorem recordsFor_le_one (id : String) :
    ∀ (evs : List Event) (st : BotState), recordsFor id st evs ≤ 1 := by
  intro evs
  induction evs with
  | nil => intro st; simp [recordsFor]
  | cons e es ih =>
    intro st
    rcases step_spec st e id with ⟨hrec, _, hnone⟩ | ⟨hrec, _⟩
    · simp [recordsFor, hrec, recordsFor_of_pending_none id es _ hnone]
    · simp only [recordsFor, if_neg hrec, Nat.zero_add]
      exact ih _

/-- A step that records a decision for an id found the draft pending, stores
the decision in the results map and removes the draft from the pending
store. -/
theorem step_recorded (st : BotState) (e : Event) (id : String) (r : ApprovalResult)
    (h : (step st e).2 = some (id, r)) :
    st.pending_tweets id ≠ none ∧
    (step st e).1.approval_results id = some r ∧
    (step st e).1.pending_tweets id = none := by
  cases e with
  | button c data =>
    cases hp : parseCallbackData data with
    | none => simp [step, button_callback, hp] at h
    | some p =>
      obtain ⟨a, t⟩ := p
      cases hq : st.pending_tweets t with
      | none => simp [step, button_callback, hp, hq] at h
      | some td =>
        by_cases hat : a = "approve"
        · subst hat
          simp only [step, button_callback, hp, hq, if_pos rfl] at h ⊢
          obtain ⟨rfl, rfl⟩ : t = id ∧ (⟨.approve, td⟩ : ApprovalResult) = r := by
            simpa using h
          simp [hq, mapInsert_same, mapErase_same]
        · by_cases hae : a = "edit"
          · subst hae; simp [step, button_callback, hp, hq] at h
          · by_cases had : a = "deny"
            · subst had
              simp only [step, button_callback, hp, hq, if_neg hat, if_pos rfl] at h ⊢
              obtain ⟨rfl, rfl⟩ : t = id ∧ (⟨.deny, td⟩ : ApprovalResult) = r := by
                simpa using h
              simp [hq, mapInsert_same, mapErase_same]
            · simp [step, button_callback, hp, hq, hat, hae, had] at h
  | freeText c txt =>
    cases he : st.edit_states c with
    | none => simp [step, message_handler, he] at h
    | some tid =>
      cases hq : st.pending_tweets tid with
      | none => simp [step, message_handler, he, hq] at h
      | some td =>
        simp only [step, message_handler, he, hq] at h ⊢
        obtain ⟨rfl, rfl⟩ : tid = id ∧ (⟨.approve, { td with text := txt }⟩ : ApprovalResult) = r := by
          simpa using h
        simp [hq, mapInsert_same, mapErase_same]

/-- Claim C1: for every draft id, at most one decision is ever recorded:
over any sequence of reviewer events the number of decision recordings for a
fixed id is at most one; the recording step is the one that found the draft
pending, stored the decision in the results map and removed the draft from
the pending store (any later handler finds it absent and records nothing);
and the coordinator consumes a stored decision exactly once — the results
entry is deleted at the moment it is read, so a second read finds nothing. -/
theorem at_most_one_decision_per_draft :
    (∀ (st : BotState) (evs : List Event) (id : String), recordsFor id st evs ≤ 1) ∧
    (∀ (st : BotState) (e : Event) (id : String) (r : ApprovalResult),
        (step st e).2 = some (id, r) →
        st.pending_tweets id ≠ none ∧
        (step st e).1.approval_results id = some r ∧
        (step st e).1.pending_tweets id = none) ∧
    (∀ (st : BotState) (id : String) (r : ApprovalResult) (st' : BotState),
        consumeResult st id = some (r, st') →
        st'.approval_results id = none ∧ consumeResult st' id = none) := by
  refine ⟨fun st evs id => recordsFor_le_one id evs st,
    fun st e id r h => step_recorded st e id r h,
    fun st id r st' h => ?_⟩
  unfold consumeResult at h
  cases hr : st.approval_results id with
  | none => rw [hr] at h; cases h
  | some r0 =>
    rw [hr] at h
    cases h
    constructor
    · exact mapErase_same _ _
    · simp [consumeResult, mapErase_same]

/-- Concrete instantiation of `at_most_one_decision_per_draft`: an approve
followed by a duplicate approve records one decision, and a concrete
consuming read deletes the entry. -/
theorem at_most_one_decision_per_draft_witness :
    recordsFor "x"
      ⟨mapInsert mapEmpty "x" ⟨"A", "p", "ts"⟩, mapEmpty, fun _ => none⟩
      [.button 1 ("approve_" ++ "x"), .button 2 ("approve_" ++ "x")] ≤ 1 ∧
    ((⟨mapInsert mapEmpty "x" ⟨"A", "p", "ts"⟩, mapEmpty, fun _ => none⟩ :
        BotState).pending_tweets "x" ≠ none ∧
      (step ⟨mapInsert mapEmpty "x" ⟨"A", "p", "ts"⟩, mapEmpty, fun _ => none⟩
        (.button 1 ("approve_" ++ "x"))).1.approval_results "x" =
          some ⟨.approve, ⟨"A", "p", "ts"⟩⟩ ∧
      (step ⟨mapInsert mapEmpty "x" ⟨"A", "p", "ts"⟩, mapEmpty, fun _ => none⟩
        (.button 1 ("approve_" ++ "x"))).1.pending_tweets "x" = none) ∧
    (({ (⟨mapEmpty, mapInsert mapEmpty "x" ⟨.approve, ⟨"A", "p", "ts"⟩⟩, fun _ => none⟩ :
          BotState) with
        approval_results :=
          mapErase (mapInsert mapEmpty "x" ⟨.approve, ⟨"A", "p", "ts"⟩⟩) "x" } :
        BotState).approval_results "x" = none ∧
      consumeResult
        { (⟨mapEmpty, mapInsert mapEmpty "x" ⟨.approve, ⟨"A", "p", "ts"⟩⟩, fun _ => none⟩ :
            BotState) with
          approval_results :=
            mapErase (mapInsert mapEmpty "x" ⟨.approve, ⟨"A", "p", "ts"⟩⟩) "x" } "x" = none) :=
  ⟨at_most_one_decision_per_draft.1 _ _ "x",
   at_most_one_decision_per_draft.2.1 _ _ "x" ⟨.approve, ⟨"A", "p", "ts"⟩⟩ (by
      rw [show (step ⟨mapInsert mapEmpty "x" ⟨"A", "p", "ts"⟩, mapEmpty, fun _ => none⟩
            (.button 1 ("approve_" ++ "x"))).2 =
          (some ("x", ⟨.approve, ⟨"A", "p", "ts"⟩⟩) :
            Option (String × ApprovalResult)) from rfl]),
   at_most_one_decision_per_draft.2.2
     ⟨mapEmpty, mapInsert mapEmpty "x" ⟨.approve, ⟨"A", "p", "ts"⟩⟩, fun _ => none⟩
     "x" ⟨.approve, ⟨"A", "p", "ts"⟩⟩ _ rfl⟩

/-! ## Claim C3: the 24-hour timeout (code bug)

The loop guard is `(datetime.now() - start_time).seconds < timeout` with
`timeout = 86400`.  `timedelta.seconds` is the seconds component modulo one
day (`elapsed % 86400 ∈ [0, 86399]`), not the total elapsed seconds, so the
guard never becomes false and the loop can only exit by consuming a result —
the timeout return of `send_tweet_for_approval` is unreachable. -/

/-- Claim C3: the polling loop of `send_tweet_for_approval` does not
terminate by timeout: the guard `(now - start).seconds < 86400` holds for
every elapsed duration because `timedelta.seconds` wraps modulo 86400, so no
run of the wait loop ever returns a timeout outcome, and with no decision
ever arriving the loop runs forever (the claimed exit at 24 hours with
`action=Timeout` never happens). -/
theorem approval_wait_never_times_out :
    (∀ elapsed : Nat, loopGuard elapsed = true) ∧
    (∀ (eventsAt : Nat → List Event) (tid ttext : String) (st : BotState)
        (elapsed fuel : Nat),
        notTimedOut (waitLoop eventsAt tid ttext st elapsed fuel) = true) ∧
    (∀ (tid ttext : String) (st : BotState) (elapsed fuel : Nat),
        st.approval_results tid = none →
        waitLoop (fun _ => []) tid ttext st elapsed fuel = none) := by
  have hguard : ∀ elapsed : Nat, loopGuard elapsed = true := by
    intro e
    have : e % 86400 < 86400 := Nat.mod_lt _ (by omega)
    simp [loopGuard, tdSeconds, approvalTimeout, this]
  refine ⟨hguard, fun eventsAt tid ttext st elapsed fuel => ?_,
    fun tid ttext st elapsed fuel h => ?_⟩
  · induction fuel generalizing st elapsed with
    | zero => rfl
    | succ n ih =>
      rw [waitLoop, if_pos ((hguard elapsed).symm ▸ rfl)]
      cases hc : consumeResult st tid with
      | none => exact ih _ _
      | some p => obtain ⟨r, st'⟩ := p; rfl
  · induction fuel generalizing elapsed with
    | zero => rfl
    | succ n ih =>
      rw [waitLoop, if_pos ((hguard elapsed).symm ▸ rfl)]
      rw [show consumeResult st tid = none by simp [consumeResult, h]]
      exact ih _

/-- Concrete instantiation of `approval_wait_never_times_out`: from an empty
results map with no incoming events, three loop iterations make no progress
towards a timeout return. -/
theorem approval_wait_never_times_out_witness :
    waitLoop (fun _ => []) "x" "hello" ⟨mapEmpty, mapEmpty, fun _ => none⟩ 0 3 = none :=
  approval_wait_never_times_out.2.2 "x" "hello"
    ⟨mapEmpty, mapEmpty, fun _ => none⟩ 0 3 rfl

/-! ## Claim C4: the timeout exit leaks the pending draft -/

/-- Counterexample to claim C4: the timeout branch of
`send_tweet_for_approval` performs no pending-store mutation, so with a
draft still pending at the moment the branch runs, the returned decision
has `action = timeout` while the draft is still present in the pending
store afterwards — not removed as the claim states. -/
theorem timeout_exit_keeps_draft_cex :
    (timeoutExit ⟨mapInsert mapEmpty "20250101_120000" ⟨"hello", "/tmp/a.png", "ts"⟩,
        mapEmpty, fun _ => none⟩ "hello").2.action = .timeout ∧
    ((timeoutExit ⟨mapInsert mapEmpty "20250101_120000" ⟨"hello", "/tmp/a.png", "ts"⟩,
        mapEmpty, fun _ => none⟩ "hello").1.pending_tweets
          "20250101_120000" = some ⟨"hello", "/tmp/a.png", "ts"⟩) ∧
    (((timeoutExit ⟨mapInsert mapEmpty "20250101_120000" ⟨"hello", "/tmp/a.png", "ts"⟩,
        mapEmpty, fun _ => none⟩ "hello").1.pending_tweets
          "20250101_120000").isSome = true) := by
  refine ⟨rfl, ?_, ?_⟩ <;> simp [timeoutExit, mapInsert]

/-- Claim C4 (amended): the timeout exit of `send_tweet_for_approval`
returns `action = timeout` and leaves the pending store exactly as it was:
a draft still pending when the branch runs remains in the store (it is
orphaned, not removed). -/
theorem timeout_exit_leaves_store_unchanged (st : BotState) (tweet_text : String) :
    (timeoutExit st tweet_text).2.action = .timeout ∧
    (timeoutExit st tweet_text).1.pending_tweets = st.pending_tweets ∧
    (timeoutExit st tweet_text).1 = st :=
  ⟨rfl, rfl, rfl⟩

/-! ## Claim C6: failure backoff in the scheduler loop -/

/-- Counterexample to claim C6: with generation and image fetch succeeding
and the approval channel failing, the cycle's sleep is the normal randomized
interval (here the sampled 1800 s), not the 300-second backoff, and it is
not strictly shorter than the 1800-second minimum of the normal interval. -/
theorem cycle_failure_backoff_cex :
    (runCycle ⟨.ok "gm", .ok "temp_image.png", .error .approvalFailed, true, 1800⟩
        []).failure = some .approvalFailed ∧
    (runCycle ⟨.ok "gm", .ok "temp_image.png", .error .approvalFailed, true, 1800⟩
        []).sleepSeconds = 1800 ∧
    decide ((runCycle ⟨.ok "gm", .ok "temp_image.png", .error .approvalFailed, true, 1800⟩
        []).sleepSeconds = 300) = false ∧
    decide ((runCycle ⟨.ok "gm", .ok "temp_image.png", .error .approvalFailed, true, 1800⟩
        []).sleepSeconds < 1800) = false := by
  refine ⟨rfl, rfl, ?_, ?_⟩ <;> rfl

/-- Claim C6 (amended): content-generation and image-fetch failures send the
scheduler to sleep for the short fixed 300-second backoff, strictly shorter
than any normal inter-cycle interval drawn from [1800, 3600]; an
approval-channel failure, or a publish failure raised inside the approval
block, is caught by the inner handler and is followed by the normal
randomized sleep instead of the backoff; and no failure terminates the
process — every cycle outcome continues the loop. -/
theorem cycle_failure_transitions (env : CycleEnv) (history : List String) :
    (∀ e, env.gen = .error e → runCycle env history = ⟨300, history, false, some e⟩) ∧
    (∀ t e, env.gen = .ok t → env.image = .error e →
        runCycle env history = ⟨300, history, false, some e⟩) ∧
    (∀ u, 1800 ≤ u → 300 < u) ∧
    (∀ t p e, env.gen = .ok t → env.image = .ok p → env.approval = .error e →
        runCycle env history = ⟨env.normalSleep, history, false, some e⟩) ∧
    (∀ t p r, env.gen = .ok t → env.image = .ok p → env.approval = .ok r →
        r.action = .approve → env.publishOk = false →
        runCycle env history = ⟨env.normalSleep, history, false, some .publishFailed⟩) ∧
    ((runCycle env history).terminated = false) := by
  refine ⟨fun e hg => by simp [runCycle, hg],
    fun t e hg hi => by simp [runCycle, hg, hi],
    fun u hu => by omega,
    fun t p e hg hi ha => by simp [runCycle, hg, hi, ha],
    fun t p r hg hi ha hr hp => by simp [runCycle, hg, hi, ha, dispatchResult, hr, hp],
    ?_⟩
  unfold runCycle
  cases env.gen with
  | error e => rfl
  | ok t =>
    cases env.image with
    | error e => rfl
    | ok p =>
      cases env.approval with
      | error e => rfl
      | ok r =>
        cases hr : dispatchResult r with
        | post s => by_cases hp : env.publishOk <;> simp [hr, hp]
        | skipDeny => simp [hr]
        | skipTimeout => simp [hr]

/-- Concrete instantiation of `cycle_failure_transitions`: a generation
failure yields the 300-second backoff without terminating, and a publish
failure inside the approval block yields the normal-interval sleep. -/
theorem cycle_failure_transitions_witness :
    runCycle ⟨.error .generationFailed, .ok "p", .ok ⟨.approve, ⟨"t", "", ""⟩⟩, true, 2000⟩ [] =
      ⟨300, [], false, some .generationFailed⟩ ∧
    (300 : Nat) < 2000 ∧
    runCycle ⟨.ok "t", .ok "p", .ok ⟨.approve, ⟨"t", "", ""⟩⟩, false, 2000⟩ ["h"] =
      ⟨2000, ["h"], false, some .publishFailed⟩ ∧
    (runCycle ⟨.ok "t", .ok "p", .ok ⟨.approve, ⟨"t", "", ""⟩⟩, false, 2000⟩ ["h"]).terminated
      = false :=
  ⟨(cycle_failure_transitions _ []).1 .generationFailed rfl,
   (cycle_failure_transitions ⟨.error .generationFailed, .ok "p",
      .ok ⟨.approve, ⟨"t", "", ""⟩⟩, true, 2000⟩ []).2.2.1 2000 (by omega),
   (cycle_failure_transitions _ ["h"]).2.2.2.2.1 "t" "p" ⟨.approve, ⟨"t", "", ""⟩⟩
      rfl rfl rfl rfl rfl,
   (cycle_failure_transitions _ ["h"]).2.2.2.2.2⟩

/-! ## Claim C7: manual-trigger debouncing (modelled from the spec) -/

/-- Claim C7 (spec-modelled): when a generation cycle is in progress the
manual trigger replies "busy, please wait", emits no wake signal and leaves
the state unchanged; otherwise it emits exactly one wake signal and sets the
pending-wake flag; and two manual triggers while busy emit no wake signal at
all and leave the pending-wake flag unchanged — at most one wake is pending,
never two queued generations. -/
theorem manual_trigger_debounces (st : TriggerState) :
    (st.generationInProgress = true →
        (onManualTrigger st).1 = st ∧
        (onManualTrigger st).2.1 = .busyPleaseWait ∧
        (onManualTrigger st).2.2 = 0) ∧
    (st.generationInProgress = false →
        (onManualTrigger st).2.2 = 1 ∧
        (onManualTrigger st).1.wakePending = true ∧
        (onManualTrigger st).2.1 = .triggered) ∧
    (st.generationInProgress = true →
        (onManualTrigger st).2.2 + (onManualTrigger (onManualTrigger st).1).2.2 = 0 ∧
        (onManualTrigger (onManualTrigger st).1).1.wakePending = st.wakePending ∧
        (onManualTrigger (onManualTrigger st).1).1 = st) := by
  refine ⟨fun h => ?_, fun h => ?_, fun h => ?_⟩
  · simp [onManualTrigger, h]
  · simp [onManualTrigger, h]
  · simp [onManualTrigger, h]

/-- Concrete instantiation of `manual_trigger_debounces`: two triggers while
busy emit no wake signals. -/
theorem manual_trigger_debounces_witness :
    (onManualTrigger ⟨true, false⟩).2.2 +
      (onManualTrigger (onManualTrigger ⟨true, false⟩).1).2.2 = 0 ∧
    (onManualTrigger (onManualTrigger ⟨true, false⟩).1).1.wakePending =
      (⟨true, false⟩ : TriggerState).wakePending ∧
    (onManualTrigger ⟨false, false⟩).2.2 = 1 :=
  ⟨((manual_trigger_debounces ⟨true, false⟩).2.2 rfl).1,
   ((manual_trigger_debounces ⟨true, false⟩).2.2 rfl).2.1,
   ((manual_trigger_debounces ⟨false, false⟩).2.1 rfl).1⟩

/-! ## Claim C9: draft-id uniqueness -/

theorem digitChar_inj (a b : Nat) (h : digitChar a = digitChar b) :
    a % 10 = b % 10 := by
  have key : ∀ x, x < 10 → ∀ y, y < 10 →
      Char.ofNat (48 + x) = Char.ofNat (48 + y) → x = y := by decide
  exact key (a % 10) (Nat.mod_lt _ (by omega)) (b % 10) (Nat.mod_lt _ (by omega)) h

/-- Two-digit zero-padded decimal renderings determine numbers below 100. -/
theorem two_digit_eq (a b : Nat) (ha : a ≤ 99) (hb : b ≤ 99)
    (h1 : a / 10 % 10 = b / 10 % 10) (h2 : a % 10 = b % 10) : a = b := by
  omega

/-- Four-digit zero-padded decimal renderings determine numbers below 10000. -/
theorem four_digit_eq (a b : Nat) (ha : a ≤ 9999) (hb : b ≤ 9999)
    (e1 : a / 1000 % 10 = b / 1000 % 10) (e2 : a / 100 % 10 = b / 100 % 10)
    (e3 : a / 10 % 10 = b / 10 % 10) (e4 : a % 10 = b % 10) : a = b := by
  omega

/-- Formatting `strftime("%Y%m%d_%H%M%S")` is injective on valid datetimes: two drafts
created at different seconds get different ids. -/
theorem formatTweetId_inj (t1 t2 : PyDateTime) (hv1 : t1.Valid) (hv2 : t2.Valid)
    (h : formatTweetId t1 = formatTweetId t2) : t1 = t2 := by
  obtain ⟨y1, mo1, d1, h1, mi1, s1⟩ := t1
  obtain ⟨y2, mo2, d2, h2, mi2, s2⟩ := t2
  obtain ⟨hy1a, hy1b, hmo1a, hmo1b, hd1a, hd1b, hh1, hmi1, hs1⟩ := hv1
  obtain ⟨hy2a, hy2b, hmo2a, hmo2b, hd2a, hd2b, hh2, hmi2, hs2⟩ := hv2
  unfold formatTweetId at h
  injection h with hl
  simp only [pad4, pad2, List.cons_append, List.nil_append, List.cons.injEq,
    and_true] at hl
  obtain ⟨e1, e2, e3, e4, e5, e6, e7, e8, -, e9, e10, e11, e12, e13, e14⟩ := hl
  have hy : y1 = y2 := four_digit_eq y1 y2 hy1b hy2b
    (digitChar_inj _ _ e1) (digitChar_inj _ _ e2)
    (digitChar_inj _ _ e3) (digitChar_inj _ _ e4)
  have hmo : mo1 = mo2 := two_digit_eq mo1 mo2
    (Nat.le_trans hmo1b (by omega)) (Nat.le_trans hmo2b (by omega))
    (digitChar_inj _ _ e5) (digitChar_inj _ _ e6)
  have hd : d1 = d2 := two_digit_eq d1 d2
    (Nat.le_trans hd1b (by omega)) (Nat.le_trans hd2b (by omega))
    (digitChar_inj _ _ e7) (digitChar_inj _ _ e8)
  have hh : h1 = h2 := two_digit_eq h1 h2
    (Nat.le_trans hh1 (by omega)) (Nat.le_trans hh2 (by omega))
    (digitChar_inj _ _ e9) (digitChar_inj _ _ e10)
  have hmi : mi1 = mi2 := two_digit_eq mi1 mi2
    (Nat.le_trans hmi1 (by omega)) (Nat.le_trans hmi2 (by omega))
    (digitChar_inj _ _ e11) (digitChar_inj _ _ e12)
  have hs : s1 = s2 := two_digit_eq s1 s2
    (Nat.le_trans hs1 (by omega)) (Nat.le_trans hs2 (by omega))
    (digitChar_inj _ _ e13) (digitChar_inj _ _ e14)
  simp [PyDateTime.mk.injEq, hy, hmo, hd, hh, hmi, hs]

theorem send_approval_request_preserves (st : BotState) (text path iso id : String)
    (t : PyDateTime) (hne : id ≠ formatTweetId t) :
    (send_approval_request_async st text path t iso).2.pending_tweets id =
      st.pending_tweets id := by
  simp [send_approval_request_async, mapInsert_ne _ _ _ _ hne]

/-- Counterexample to claim C9: two submissions created in the same second
derive the same tweet id ("%Y%m%d_%H%M%S" has one-second resolution), and
the second `pending_tweets[tweet_id] = {...}` overwrites the first pending
draft's record: afterwards the store holds the second draft's data under
that id and the first draft's record is gone. -/
theorem draft_id_overwrite_cex :
    (send_approval_request_async ⟨mapEmpty, mapEmpty, fun _ => none⟩
        "A" "p1" ⟨2025, 1, 1, 12, 0, 0⟩ "iso1").1 =
      (send_approval_request_async
        (send_approval_request_async ⟨mapEmpty, mapEmpty, fun _ => none⟩
          "A" "p1" ⟨2025, 1, 1, 12, 0, 0⟩ "iso1").2
        "B" "p2" ⟨2025, 1, 1, 12, 0, 0⟩ "iso2").1 ∧
    (send_approval_request_async
        (send_approval_request_async ⟨mapEmpty, mapEmpty, fun _ => none⟩
          "A" "p1" ⟨2025, 1, 1, 12, 0, 0⟩ "iso1").2
        "B" "p2" ⟨2025, 1, 1, 12, 0, 0⟩ "iso2").2.pending_tweets "20250101_120000" =
      some ⟨"B", "p2", "iso2"⟩ ∧
    decide ((send_approval_request_async
        (send_approval_request_async ⟨mapEmpty, mapEmpty, fun _ => none⟩
          "A" "p1" ⟨2025, 1, 1, 12, 0, 0⟩ "iso1").2
        "B" "p2" ⟨2025, 1, 1, 12, 0, 0⟩ "iso2").2.pending_tweets "20250101_120000" =
      some ⟨"A", "p1", "iso1"⟩) = false := by
  refine ⟨rfl, by decide, by decide⟩

/-- Claim C9 (amended): draft ids are derived injectively from the creation
time at one-second resolution — drafts created at different (valid) seconds
have different ids, and a submission stores the new draft under its own id
and leaves every pending record with a different id unchanged; only two
submissions within the same second share an id, in which case the later
overwrites the earlier. -/
theorem draft_id_unique_of_distinct_seconds :
    (∀ t1 t2 : PyDateTime, t1.Valid → t2.Valid →
        formatTweetId t1 = formatTweetId t2 → t1 = t2) ∧
    (∀ (st : BotState) (text path iso id : String) (t : PyDateTime),
        id ≠ formatTweetId t →
        (send_approval_request_async st text path t iso).2.pending_tweets id =
          st.pending_tweets id) ∧
    (∀ (st : BotState) (text path iso : String) (t : PyDateTime),
        (send_approval_request_async st text path t iso).1 = formatTweetId t ∧
        (send_approval_request_async st text path t iso).2.pending_tweets
          (formatTweetId t) = some ⟨text, path, iso⟩) :=
  ⟨formatTweetId_inj,
   fun st text path iso id t hne =>
     send_approval_request_preserves st text path iso id t hne,
   fun st text path iso t =>
     ⟨rfl, by simp [send_approval_request_async, mapInsert_same]⟩⟩

/-- Concrete instantiation of `draft_id_unique_of_distinct_seconds`: two
ids one second apart differ, and a submission leaves a differently-keyed
record unchanged. -/
theorem draft_id_unique_of_distinct_seconds_witness :
    (⟨2025, 1, 1, 12, 0, 0⟩ : PyDateTime) = ⟨2025, 1, 1, 12, 0, 0⟩ ∧
    (send_approval_request_async ⟨mapEmpty, mapEmpty, fun _ => none⟩
        "A" "p1" ⟨2025, 1, 1, 12, 0, 1⟩ "iso").2.pending_tweets "20250101_120000" =
      (⟨mapEmpty, mapEmpty, fun _ => none⟩ : BotState).pending_tweets "20250101_120000" ∧
    (send_approval_request_async ⟨mapEmpty, mapEmpty, fun _ => none⟩
        "A" "p1" ⟨2025, 1, 1, 12, 0, 1⟩ "iso").2.pending_tweets
      (formatTweetId ⟨2025, 1, 1, 12, 0, 1⟩) = some ⟨"A", "p1", "iso"⟩ :=
  ⟨draft_id_unique_of_distinct_seconds.1 ⟨2025, 1, 1, 12, 0, 0⟩ ⟨2025, 1, 1, 12, 0, 0⟩
      (by decide) (by decide) rfl,
   draft_id_unique_of_distinct_seconds.2.1 ⟨mapEmpty, mapEmpty, fun _ => none⟩
      "A" "p1" "iso" "20250101_120000" ⟨2025, 1, 1, 12, 0, 1⟩ (by decide),
   (draft_id_unique_of_distinct_seconds.2.2 ⟨mapEmpty, mapEmpty, fun _ => none⟩
      "A" "p1" "iso" ⟨2025, 1, 1, 12, 0, 1⟩).2⟩

/-! ## Claim C8: history round-trip -/

theorem hexDigitVal_hexDigitChar : ∀ v, v < 16 → hexDigitVal (hexDigitChar v) = some v := by
  decide

theorem parseStringBody_quote (rest : List Char) :
    parseStringBody ('"' :: rest) = some ([], rest) := rfl

theorem parseStringBody_escQuote (rest : List Char) :
    parseStringBody ('\\' :: '"' :: rest) =
      (parseStringBody rest).map (fun p => ('"' :: p.1, p.2)) := rfl

theorem parseStringBody_escBackslash (rest : List Char) :
    parseStringBody ('\\' :: '\\' :: rest) =
      (parseStringBody rest).map (fun p => ('\\' :: p.1, p.2)) := rfl

theorem parseStringBody_escU (a b c d : Char) (rest : List Char) :
    parseStringBody ('\\' :: 'u' :: a :: b :: c :: d :: rest) =
      (hex4 a b c d).bind (fun v =>
        (parseStringBody rest).map (fun p => (Char.ofNat v :: p.1, p.2))) := rfl

theorem parseStringBody_other (c : Char) (rest : List Char)
    (h1 : ¬c = '"') (h2 : ¬c = '\\') :
    parseStringBody (c :: rest) =
      (parseStringBody rest).map (fun p => (c :: p.1, p.2)) := by
  rw [parseStringBody.eq_def]
  split <;> simp_all

/-- Parsing the escape sequence of one character prepends that character. -/
theorem parseStringBody_escapeChar (c : Char) (l : List Char) :
    parseStringBody (escapeChar c ++ l) =
      (parseStringBody l).map (fun p => (c :: p.1, p.2)) := by
  by_cases h1 : c = '"'
  · subst h1
    rw [show escapeChar '"' ++ l = '\\' :: '"' :: l from rfl, parseStringBody_escQuote]
  · by_cases h2 : c = '\\'
    · subst h2
      rw [show escapeChar '\\' ++ l = '\\' :: '\\' :: l from rfl,
        parseStringBody_escBackslash]
    · by_cases h3 : c.toNat < 32
      · have hv1 : hexDigitVal (hexDigitChar (c.toNat / 16)) = some (c.toNat / 16) :=
          hexDigitVal_hexDigitChar _ (by omega)
        have hv2 : hexDigitVal (hexDigitChar (c.toNat % 16)) = some (c.toNat % 16) :=
          hexDigitVal_hexDigitChar _ (Nat.mod_lt _ (by omega))
        have hV : hex4 '0' '0' (hexDigitChar (c.toNat / 16)) (hexDigitChar (c.toNat % 16)) =
            some c.toNat := by
          rw [hex4, show hexDigitVal '0' = some 0 from by decide]
          simp only [Option.some_bind, hv1, hv2, Option.map_some']
          congr 1
          omega
        rw [show escapeChar c ++ l =
            '\\' :: 'u' :: '0' :: '0' :: hexDigitChar (c.toNat / 16) ::
              hexDigitChar (c.toNat % 16) :: l from by
          simp [escapeChar, h1, h2, h3]]
        rw [parseStringBody_escU, hV]
        simp only [Option.some_bind, Char.ofNat_toNat]
      · rw [show escapeChar c ++ l = c :: l from by simp [escapeChar, h1, h2, h3],
          parseStringBody_other c l h1 h2]

/-- Parsing the escaping of a character list prepends the list. -/
theorem parseStringBody_escapeList (s l : List Char) :
    parseStringBody (escapeList s ++ l) =
      (parseStringBody l).map (fun p => (s ++ p.1, p.2)) := by
  induction s with
  | nil =>
    rw [escapeList, List.nil_append]
    cases parseStringBody l with
    | none => rfl
    | some p => rfl
  | cons c cs ih =>
    rw [escapeList, List.append_assoc, parseStringBody_escapeChar, ih, Option.map_map]
    rfl

/-- Parsing an encoded string literal body returns the original characters
and the input after the closing quote. -/
theorem parseStringBody_quoted (s : String) (l : List Char) :
    parseStringBody (escapeList s.data ++ '"' :: l) = some (s.data, l) := by
  rw [parseStringBody_escapeList]
  simp [parseStringBody]

theorem parseElems_firstElem (fuel : Nat) (rest : List Char) :
    parseElems false (fuel + 1) ('"' :: rest) =
      (parseStringBody rest).bind (fun sp =>
        (parseElems true fuel sp.2).map (fun p => (String.mk sp.1 :: p.1, p.2))) := rfl

theorem parseElems_nextElem (fuel : Nat) (rest : List Char) :
    parseElems true (fuel + 1) (',' :: ' ' :: '"' :: rest) =
      (parseStringBody rest).bind (fun sp =>
        (parseElems true fuel sp.2).map (fun p => (String.mk sp.1 :: p.1, p.2))) := rfl

/-- Parsing the tail encoding of a history list recovers the list. -/
theorem parseElems_encodeRest (ts : List String) :
    ∀ fuel, ts.length < fuel →
      parseElems true fuel (encodeElemsRest ts) = some (ts, []) := by
  induction ts with
  | nil =>
    intro fuel hf
    obtain ⟨f, rfl⟩ : ∃ f, fuel = f + 1 := ⟨fuel - 1, by omega⟩
    rfl
  | cons t ts ih =>
    intro fuel hf
    obtain ⟨f, rfl⟩ : ∃ f, fuel = f + 1 := ⟨fuel - 1, by omega⟩
    rw [encodeElemsRest, parseElems_nextElem, parseStringBody_quoted]
    simp only [Option.some_bind]
    rw [ih f (by simpa using Nat.lt_of_succ_lt_succ hf)]
    rfl

/-- Parsing the full element encoding (after `[`) recovers the list. -/
theorem parseElems_encodeFirst (ts : List String) :
    ∀ fuel, ts.length < fuel →
      parseElems false fuel (encodeElemsFirst ts) = some (ts, []) := by
  cases ts with
  | nil =>
    intro fuel hf
    obtain ⟨f, rfl⟩ : ∃ f, fuel = f + 1 := ⟨fuel - 1, by omega⟩
    rfl
  | cons t ts =>
    intro fuel hf
    obtain ⟨f, rfl⟩ : ∃ f, fuel = f + 1 := ⟨fuel - 1, by omega⟩
    rw [encodeElemsFirst, parseElems_firstElem, parseStringBody_quoted]
    simp only [Option.some_bind]
    rw [parseElems_encodeRest ts f (by simpa using Nat.lt_of_succ_lt_succ hf)]
    rfl

theorem encodeElemsRest_length (ts : List String) :
    ts.length ≤ (encodeElemsRest ts).length := by
  induction ts with
  | nil => simp [encodeElemsRest]
  | cons t ts ih =>
    simp only [encodeElemsRest, List.length_cons, List.length_append]
    omega

theorem encodeElemsFirst_length (ts : List String) :
    ts.length ≤ (encodeElemsFirst ts).length := by
  cases ts with
  | nil => simp [encodeElemsFirst]
  | cons t ts =>
    have := encodeElemsRest_length ts
    simp only [encodeElemsFirst, List.length_cons, List.length_append]
    omega

/-- Parsing (`json.load`) after encoding (`json.dump`) recovers the history list. -/
theorem parseHistory_encodeHistory (l : List String) :
    parseHistory (encodeHistory l) = some l := by
  show (match ('[' :: encodeElemsFirst l : List Char) with
    | '[' :: rest =>
      match parseElems false (rest.length + 1) rest with
      | some (l, []) => some l
      | _ => none
    | _ => none) = some l
  have hlen : l.length < (encodeElemsFirst l).length + 1 :=
    Nat.lt_succ_of_le (encodeElemsFirst_length l)
  simp only [parseElems_encodeFirst l _ hlen]

/-- Claim C8: history round-trip — for every history list and every sequence
of appended texts, saving the extended list and loading it again returns
exactly the in-memory list that was saved, the same texts in the same
order; iterating the per-cycle append-save-load of `main` over N texts from
a file holding H loads H with the N texts appended in order. -/
theorem history_round_trip :
    (∀ H ts : List String, load_history (save_history (H ++ ts)) = some (H ++ ts)) ∧
    (∀ (ts : List String) (file : HistoryFile) (H : List String),
        load_history file = some H →
        load_history (appendAndSaveAll file ts) = some (H ++ ts)) := by
  have hrt : ∀ l : List String, load_history (save_history l) = some l := fun l =>
    parseHistory_encodeHistory l
  refine ⟨fun H ts => hrt _, fun ts => ?_⟩
  induction ts with
  | nil =>
    intro file H h
    simpa [appendAndSaveAll] using h
  | cons t ts ih =>
    intro file H h
    rw [appendAndSaveAll, h]
    have := ih (save_history (H ++ [t])) (H ++ [t]) (hrt _)
    simpa [List.append_assoc] using this

/-- Concrete instantiation of `history_round_trip`: appending two texts to a
saved one-element history and reloading yields the three texts in order. -/
theorem history_round_trip_witness :
    load_history (appendAndSaveAll (save_history ["gm"]) ["wagmi", "ser"]) =
      some (["gm"] ++ ["wagmi", "ser"]) :=
  history_round_trip.2 ["wagmi", "ser"] (save_history ["gm"]) ["gm"]
    (history_round_trip.1 [] ["gm"])

end Mechapengu
